import Mathlib

/-!
Verification of the compatibility and authentication normalization core of the
`mcp-atlassian` Jira client layer.  Each Python function referenced by the
specification is shallowly embedded as an executable Lean definition:

* `src/mcp_atlassian/jira/http_client.py`  — `normalize_api_path` (v3 → v2 path rewrite)
* `src/mcp_atlassian/jira/client.py`       — `_logout`, `_refresh_cookie_session`,
  `_validate_authentication`, `get_paged`
* `src/mcp_atlassian/jira/mappers.py`      — `UserFieldMapper.normalize_user_response`,
  `IssueFieldMapper.normalize_issue_response`, `CommentFieldMapper.normalize_comment_response`
* `src/mcp_atlassian/jira/config.py`       — the auth-type resolution of `JiraConfig.from_env`
* `src/mcp_atlassian/utils/ssl.py`         — `configure_ssl_verification`

Python dictionaries are modelled as association lists with Python insertion-order
semantics (`alookup` = `d[k]` / `k in d`, `aset` = `d[k] = v`: overwrite in place,
append if new).  Stateful code is modelled by explicit state passing; fallible
code returns `Except`.
-/

/-! ### Association lists: the model of Python `dict` -/

/-- Python `k in d` / `d.get(k)`: first binding of the key, if any. -/
def alookup {α : Type} (d : List (String × α)) (k : String) : Option α :=
  match d with
  | [] => none
  | (k2, v) :: rest => if k2 = k then some v else alookup rest k

/-- Python `d[k] = v` dict assignment — overwrites the existing binding in place
(keeping insertion order), appends a new binding otherwise. -/
def aset {α : Type} (d : List (String × α)) (k : String) (v : α) : List (String × α) :=
  match d with
  | [] => [(k, v)]
  | (k2, v2) :: rest => if k2 = k then (k2, v) :: rest else (k2, v2) :: aset rest k v

theorem alookup_aset_self {α : Type} (d : List (String × α)) (k : String) (v : α) :
    alookup (aset d k v) k = some v := by
  induction d with
  | nil => simp [aset, alookup]
  | cons p rest ih =>
    obtain ⟨k2, v2⟩ := p
    by_cases h : k2 = k
    · simp [aset, alookup, h]
    · simp [aset, alookup, h, ih]

theorem alookup_aset_ne {α : Type} (d : List (String × α)) (k k2 : String) (v : α)
    (h : k2 ≠ k) : alookup (aset d k v) k2 = alookup d k2 := by
  have hks : ¬ k = k2 := fun hh => h hh.symm
  induction d with
  | nil => simp [aset, alookup, hks]
  | cons p rest ih =>
    obtain ⟨k3, v3⟩ := p
    by_cases h3 : k3 = k
    · subst h3
      simp [aset, alookup, hks]
    · by_cases h4 : k3 = k2
      · subst h4
        simp [aset, alookup, h3]
      · simp [aset, alookup, h3, h4, ih]

/-! ### C2 — `normalize_api_path` (http_client.py, lines 77–89)

Strings are modelled as `List Char`.  `strContains pat s` is Python's
`pat in s`; `replaceAll` is Python's `str.replace` (left-to-right,
non-overlapping). -/

/-- Python `pat in s`: some suffix of `s` starts with `pat`. -/
def strContains (pat : List Char) : List Char → Bool
  | [] => pat.isEmpty
  | c :: rest => pat.isPrefixOf (c :: rest) || strContains pat rest

/-- One step per character of Python `s.replace(p :: ps, rep)` for a non-empty
pattern: scan left to right, replace each non-overlapping occurrence, continue
after the replaced region.  The `fuel` argument only pads structural
termination; every step consumes at least one character, so fuel
`s.length` never runs out. -/
def replaceAllF (p : Char) (ps rep : List Char) : Nat → List Char → List Char
  | _, [] => []
  | 0, s => s
  | fuel + 1, c :: rest =>
    if (p :: ps).isPrefixOf (c :: rest) then
      rep ++ replaceAllF p ps rep fuel (rest.drop ps.length)
    else
      c :: replaceAllF p ps rep fuel rest

/-- Python `s.replace(p :: ps, rep)` (left-to-right, non-overlapping). -/
def replaceAll (p : Char) (ps rep : List Char) (s : List Char) : List Char :=
  replaceAllF p ps rep s.length s

/-- The literal `"/rest/api/3/"` as a character list. -/
def apiV3 : List Char := '/' :: "rest/api/3/".toList

/-- The literal `"/rest/api/2/"` as a character list. -/
def apiV2 : List Char := "/rest/api/2/".toList

/-- Model of `normalize_api_path(url, force_v2)`:
`if force_v2 and "/rest/api/3/" in url: return url.replace("/rest/api/3/", "/rest/api/2/")`;
otherwise the url is returned unchanged. -/
def normalize_api_path (url : List Char) (force_v2 : Bool) : List Char :=
  if force_v2 && strContains apiV3 url then
    replaceAll '/' "rest/api/3/".toList apiV2 url
  else
    url

theorem isPrefixOf_append_self (l t : List Char) : l.isPrefixOf (l ++ t) = true := by
  induction l with
  | nil => simp [List.isPrefixOf]
  | cons a l ih => simp [List.isPrefixOf, ih]

theorem strContains_append_self (rep t : List Char) :
    strContains rep (rep ++ t) = true := by
  cases rep with
  | nil =>
    cases t with
    | nil => simp [strContains, List.isEmpty]
    | cons c rest => simp [strContains, List.isPrefixOf]
  | cons r rs =>
    have h1 : (r :: rs).isPrefixOf ((r :: rs) ++ t) = true := isPrefixOf_append_self _ _
    simp only [List.cons_append] at h1
    simp [List.cons_append, strContains, h1]

theorem strContains_replaceAllF (p : Char) (ps rep : List Char) :
    ∀ (fuel : Nat) (s : List Char), s.length ≤ fuel →
      strContains (p :: ps) s = true →
      strContains rep (replaceAllF p ps rep fuel s) = true := by
  intro fuel
  induction fuel with
  | zero =>
    intro s hlen h
    have : s = [] := List.eq_nil_of_length_eq_zero (Nat.le_zero.mp hlen)
    subst this
    simp [strContains, List.isEmpty] at h
  | succ fuel ih =>
    intro s hlen h
    cases s with
    | nil => simp [strContains, List.isEmpty] at h
    | cons c rest =>
      cases hb : (p :: ps).isPrefixOf (c :: rest) with
      | true =>
        simp only [replaceAllF, hb, if_true]
        exact strContains_append_self rep _
      | false =>
        simp only [replaceAllF, hb, Bool.false_eq_true, if_false]
        simp only [strContains, hb, Bool.false_or] at h
        have hrest : rest.length ≤ fuel := by
          simp only [List.length_cons] at hlen
          omega
        have := ih rest hrest h
        cases rep with
        | nil => simp [strContains, List.isPrefixOf]
        | cons r rs =>
          simp only [strContains]
          rw [this]
          simp

theorem strContains_replaceAll (p : Char) (ps rep : List Char) (s : List Char)
    (h : strContains (p :: ps) s = true) :
    strContains rep (replaceAll p ps rep s) = true :=
  strContains_replaceAllF p ps rep s.length s (Nat.le_refl _) h

/-- Claim C2 counterexample: in the URL `"/rest/api/3/rest/api/3/"` the two
occurrences of `/rest/api/3/` overlap (they share the middle slash), so
Python's left-to-right non-overlapping `str.replace` rewrites only the first
one, and the normalized URL still contains `/rest/api/3/`. -/
theorem normalize_api_path_overlap_counterexample :
    strContains apiV3 "/rest/api/3/rest/api/3/".toList = true
    ∧ normalize_api_path "/rest/api/3/rest/api/3/".toList true
        = "/rest/api/2/rest/api/3/".toList
    ∧ strContains apiV3 (normalize_api_path "/rest/api/3/rest/api/3/".toList true)
        = true := by
  refine ⟨by decide, by decide, by decide⟩

/-- Claim C2 (amended): with `force_v2 = false` every URL is returned
unchanged; a URL not containing `/rest/api/3/` is returned unchanged even
with `force_v2 = true`; and with `force_v2 = true` a URL containing
`/rest/api/3/` has all its non-overlapping occurrences (scanned left to
right, Python `str.replace` semantics) rewritten, so the result contains
`/rest/api/2/` — but when occurrences of `/rest/api/3/` overlap, the result
can still contain `/rest/api/3/`. -/
theorem normalize_api_path_spec (url : List Char) :
    normalize_api_path url false = url
    ∧ (strContains apiV3 url = false → normalize_api_path url true = url)
    ∧ (strContains apiV3 url = true →
        normalize_api_path url true = replaceAll '/' "rest/api/3/".toList apiV2 url
        ∧ strContains apiV2 (normalize_api_path url true) = true) := by
  refine ⟨by simp [normalize_api_path], ?_, ?_⟩
  · intro h
    simp [normalize_api_path, h]
  · intro h
    constructor
    · simp [normalize_api_path, h]
    · have h2 : strContains ('/' :: "rest/api/3/".toList) url = true := by
        simpa [apiV3] using h
      simp only [normalize_api_path, h, Bool.true_and, if_true]
      exact strContains_replaceAll '/' "rest/api/3/".toList apiV2 url h2

/-- Witness for `normalize_api_path_spec` at a concrete URL. -/
theorem normalize_api_path_spec_witness :
    strContains apiV2
      (normalize_api_path "https://jira.local/rest/api/3/issue/PROJ-1/comment".toList true)
      = true :=
  ((normalize_api_path_spec
      "https://jira.local/rest/api/3/issue/PROJ-1/comment".toList).2.2 (by decide)).2

/-! ### C1 — `_logout` (client.py, lines 256–276)

`_logout` acts only when a cookie session token is cached (truthy) and
`jira_auth == "cookie"`.  It wraps the whole body — the DELETE call *and*
the `self._cookie_session = None` assignment — in one `try/except` that
logs and swallows every exception. -/

/-- Outcome of the external `requests.delete` call. -/
inductive DeleteOutcome where
  | response (status : Nat)
  | raised
deriving DecidableEq

/-- Post-state of `_logout`: the cached `_cookie_session` and whether the
method itself raised. -/
structure LogoutResult where
  cookie_session : Option String
  raised : Bool
deriving DecidableEq

/-- Python truthiness of the cached `_cookie_session` string. -/
def cookieTruthy : Option String → Bool
  | some s => !s.isEmpty
  | none => false

/-- Model of `_logout`: if a token is cached and cookie auth is configured, call
`requests.delete`; only when that call returns (with any status) is
`_cookie_session` set to `None`.  If the call raises, the `except` block
is entered before the assignment runs, so the token is retained; the
exception is logged and never propagated. -/
def logout (cookie_session : Option String) (jira_auth_cookie : Bool)
    (delete : DeleteOutcome) : LogoutResult :=
  if cookieTruthy cookie_session && jira_auth_cookie then
    match delete with
    | DeleteOutcome.response _ => { cookie_session := none, raised := false }
    | DeleteOutcome.raised => { cookie_session := cookie_session, raised := false }
  else
    { cookie_session := cookie_session, raised := false }

/-- Claim C1 counterexample: with a cached token and cookie auth configured,
a DELETE that raises a network error leaves `_cookie_session` still set —
the claim that logout always clears the token fails. -/
theorem logout_network_error_counterexample :
    (logout (some "abc123") true DeleteOutcome.raised).cookie_session = some "abc123"
    ∧ (logout (some "abc123") true DeleteOutcome.raised).cookie_session ≠ none := by
  refine ⟨by decide, by decide⟩

/-- Claim C1 (amended): `_logout` never raises; with a cached token and
cookie auth configured it clears `_cookie_session` whenever the DELETE call
returns, regardless of the HTTP response status — but when the DELETE call
raises (e.g. a network error) the token is retained unchanged. -/
theorem logout_spec (cookie : Option String) (auth : Bool) (d : DeleteOutcome) :
    (logout cookie auth d).raised = false
    ∧ (∀ s : Nat, d = DeleteOutcome.response s → cookieTruthy cookie = true → auth = true →
        (logout cookie auth d).cookie_session = none)
    ∧ (d = DeleteOutcome.raised → (logout cookie auth d).cookie_session = cookie) := by
  refine ⟨?_, ?_, ?_⟩
  · by_cases hg : (cookieTruthy cookie && auth) = true
    · cases d <;> simp [logout, hg]
    · simp only [Bool.not_eq_true] at hg
      simp [logout, hg]
  · intro s hd hc ha
    subst hd; subst ha
    simp [logout, hc]
  · intro hd
    subst hd
    by_cases hg : (cookieTruthy cookie && auth) = true
    · simp [logout, hg]
    · simp only [Bool.not_eq_true] at hg
      simp [logout, hg]

/-- Witness for `logout_spec`: a DELETE answered with HTTP 500 still clears
the cached token, and a raising DELETE retains it. -/
theorem logout_spec_witness :
    (logout (some "tok") true (DeleteOutcome.response 500)).cookie_session = none
    ∧ (logout (some "tok") true DeleteOutcome.raised).cookie_session = some "tok" :=
  ⟨(logout_spec (some "tok") true (DeleteOutcome.response 500)).2.1 500 rfl (by decide) rfl,
   (logout_spec (some "tok") true DeleteOutcome.raised).2.2 rfl⟩

/-! ### C3 / C10 — `get_paged` (client.py, lines 377–434)

The network is modelled as the ordered list of responses the server would
return, consumed one per request.  A response is either a JSON object
(modelled as an association list of string parameters) or a non-dict value.
The loop state `current_data` is Python's `params_or_json or {}`: when the
caller passes a truthy (non-empty) dict it is the caller's own object and
every `current_data["nextPageToken"] = ...` assignment is visible to the
caller after the call; a falsy (empty or absent) argument is replaced by a
fresh dict, leaving the caller's object untouched. -/

/-- A page-request parameter dict. -/
abbrev PDict := List (String × String)

/-- One response from `self.jira.get` / `self.jira.post`. -/
inductive ApiResult where
  | dict (d : PDict)
  | nonDict
deriving DecidableEq

/-- The continuation-token key `"nextPageToken"`. -/
def tokKey : String := "nextPageToken"

/-- The `while True` loop of `get_paged`: issue one request with the current
parameters, fail on a non-dict payload, append the page, stop when the
response lacks `nextPageToken`, otherwise copy the token into the parameters
and continue.  Returns the pages in order, the parameter dict snapshot used
by each request, and the final state of `current_data`. -/
def get_paged_loop : List ApiResult → PDict → Except String (List PDict × List PDict × PDict)
  | [], _ => Except.error "no further response available"
  | ApiResult.nonDict :: _, _ => Except.error "API result is not a dictionary"
  | ApiResult.dict d :: rest, cur =>
    match alookup d tokKey with
    | none => Except.ok ([d], [cur], cur)
    | some tok =>
      match get_paged_loop rest (aset cur tokKey tok) with
      | Except.error e => Except.error e
      | Except.ok (pages, trace, fin) => Except.ok (d :: pages, cur :: trace, fin)

/-- Model of `get_paged`: raises on non-Cloud configurations, otherwise runs the
pagination loop starting from `params_or_json or {}`.  The third component
of a successful result is the caller's `params_or_json` object as observable
after the call: it is the loop's final `current_data` exactly when the
caller passed a truthy (non-empty) dict, since `params_or_json or {}`
aliases the caller's dict in that case and a fresh dict otherwise. -/
def get_paged (is_cloud : Bool) (params_or_json : Option PDict)
    (responses : List ApiResult) :
    Except String (List PDict × List PDict × Option PDict) :=
  if is_cloud then
    match get_paged_loop responses (params_or_json.getD []) with
    | Except.error e => Except.error e
    | Except.ok (pages, trace, fin) =>
      Except.ok (pages, trace,
        match params_or_json with
        | some d => if d.isEmpty then some d else some fin
        | none => none)
  else
    Except.error "Paged requests are only available for Jira Cloud platform"

theorem get_paged_loop_spec :
    ∀ (ds : List PDict), ds ≠ [] →
    (∀ i di, i + 1 < ds.length → ds.get? i = some di →
        (alookup di tokKey).isSome = true) →
    (∀ dl, ds.getLast? = some dl → alookup dl tokKey = none) →
    ∀ cur, ∃ trace fin,
      get_paged_loop (ds.map ApiResult.dict) cur = Except.ok (ds, trace, fin)
      ∧ trace.length = ds.length
      ∧ trace.get? 0 = some cur
      ∧ (ds.length = 1 → fin = cur)
      ∧ (1 < ds.length → ∀ dpen, ds.get? (ds.length - 2) = some dpen →
          alookup fin tokKey = alookup dpen tokKey)
      ∧ ∀ i ti di, trace.get? (i + 1) = some ti → ds.get? i = some di →
          alookup ti tokKey = alookup di tokKey := by
  intro ds
  induction ds with
  | nil => intro hne; exact absurd rfl hne
  | cons d ds ih =>
    intro _ htok hlast cur
    cases ds with
    | nil =>
      have hnone : alookup d tokKey = none := hlast d (by simp)
      refine ⟨[cur], cur, ?_, rfl, rfl, fun _ => rfl, ?_, ?_⟩
      · simp [get_paged_loop, hnone]
      · intro h
        simp only [List.length_singleton] at h
        omega
      · intro i ti di h1 h2
        rw [List.get?_cons_succ] at h1
        simp at h1
    | cons e es =>
      have h0 : (alookup d tokKey).isSome = true :=
        htok 0 d (by simp only [List.length_cons]; omega) rfl
      cases heq : alookup d tokKey with
      | none => rw [heq] at h0; simp at h0
      | some tok =>
        have htok' : ∀ i di, i + 1 < (e :: es).length → (e :: es).get? i = some di →
            (alookup di tokKey).isSome = true := by
          intro i di hi hg
          exact htok (i + 1) di
            (by simp only [List.length_cons] at hi ⊢; omega)
            (by rw [List.get?_cons_succ]; exact hg)
        have hlast' : ∀ dl, (e :: es).getLast? = some dl → alookup dl tokKey = none := by
          intro dl hdl
          exact hlast dl (by rw [List.getLast?_cons_cons]; exact hdl)
        obtain ⟨trace, fin, hloop, hlen, hhead, hone, hpen, hidx⟩ :=
          ih (by simp) htok' hlast' (aset cur tokKey tok)
        refine ⟨cur :: trace, fin, ?_, ?_, rfl, ?_, ?_, ?_⟩
        · rw [List.map_cons]
          show (match alookup d tokKey with
                | none => Except.ok ([d], [cur], cur)
                | some tok2 =>
                  match get_paged_loop (List.map ApiResult.dict (e :: es))
                      (aset cur tokKey tok2) with
                  | Except.error er => Except.error er
                  | Except.ok (pages, trace2, fin2) =>
                      Except.ok (d :: pages, cur :: trace2, fin2))
              = Except.ok (d :: e :: es, cur :: trace, fin)
          rw [heq]
          show (match get_paged_loop (List.map ApiResult.dict (e :: es))
                  (aset cur tokKey tok) with
                | Except.error er => Except.error er
                | Except.ok (pages, trace2, fin2) =>
                    Except.ok (d :: pages, cur :: trace2, fin2))
              = Except.ok (d :: e :: es, cur :: trace, fin)
          rw [hloop]
        · simp [List.length_cons, hlen]
        · intro h
          simp only [List.length_cons] at h
          omega
        · intro _ dpen hdpen
          cases es with
          | nil =>
            have hidx0 : (d :: e :: ([] : List PDict)).length - 2 = 0 := by
              simp only [List.length_cons, List.length_nil]
            rw [hidx0, List.get?_cons_zero] at hdpen
            injection hdpen with hdpen2
            subst hdpen2
            have hfin : fin = aset cur tokKey tok := hone rfl
            rw [hfin, alookup_aset_self, heq]
          | cons f fs =>
            have hidx1 : (d :: e :: f :: fs).length - 2 = fs.length + 1 := by
              simp only [List.length_cons]
              omega
            rw [hidx1, List.get?_cons_succ] at hdpen
            have hidx2 : (e :: f :: fs).length - 2 = fs.length := by
              simp only [List.length_cons]
              omega
            refine hpen (by simp only [List.length_cons]; omega) dpen ?_
            rw [hidx2]
            exact hdpen
        · intro i ti di h1 h2
          rw [List.get?_cons_succ] at h1
          cases i with
          | zero =>
            rw [hhead] at h1
            injection h1 with h1b
            rw [List.get?_cons_zero] at h2
            injection h2 with h2b
            subst h1b
            subst h2b
            rw [alookup_aset_self, heq]
          | succ j =>
            rw [List.get?_cons_succ] at h2
            exact hidx j ti di h1 h2

theorem get_paged_loop_nonDict :
    ∀ (pre : List PDict) (rest : List ApiResult) (cur : PDict),
      (∀ d, d ∈ pre → (alookup d tokKey).isSome = true) →
      ∃ e, get_paged_loop (pre.map ApiResult.dict ++ ApiResult.nonDict :: rest) cur
          = Except.error e := by
  intro pre
  induction pre with
  | nil =>
    intro rest cur _
    exact ⟨"API result is not a dictionary", rfl⟩
  | cons d pre ih =>
    intro rest cur hmem
    have hd : (alookup d tokKey).isSome = true := hmem d (by simp)
    cases heq : alookup d tokKey with
    | none => rw [heq] at hd; simp at hd
    | some tok =>
      obtain ⟨e, he⟩ := ih rest (aset cur tokKey tok) (fun x hx => hmem x (by simp [hx]))
      refine ⟨e, ?_⟩
      rw [List.map_cons, List.cons_append]
      show (match alookup d tokKey with
            | none => Except.ok ([d], [cur], cur)
            | some tok2 =>
              match get_paged_loop (List.map ApiResult.dict pre ++ ApiResult.nonDict :: rest)
                  (aset cur tokKey tok2) with
              | Except.error er => Except.error er
              | Except.ok (pages, trace2, fin2) =>
                  Except.ok (d :: pages, cur :: trace2, fin2))
          = Except.error e
      rw [heq]
      show (match get_paged_loop (List.map ApiResult.dict pre ++ ApiResult.nonDict :: rest)
              (aset cur tokKey tok) with
            | Except.error er => Except.error er
            | Except.ok (pages, trace2, fin2) =>
                Except.ok (d :: pages, cur :: trace2, fin2))
          = Except.error e
      rw [he]

/-- Claim C3: on a Cloud client, given `n ≥ 1` dict responses where
`response[i]` contains `nextPageToken` exactly for `i < n - 1`, `get_paged`
returns exactly `[response[0], …, response[n-1]]` in order; the parameter
dict of the request for page `i + 1` carries `nextPageToken` equal to
response `i`'s token; and whenever some response is not a dict (after any
prefix of token-bearing dict pages), `get_paged` raises an error instead of
returning. -/
theorem get_paged_pagination (ds : List PDict) (params : Option PDict)
    (hne : ds ≠ [])
    (htok : ∀ i di, i + 1 < ds.length → ds.get? i = some di →
        (alookup di tokKey).isSome = true)
    (hlast : ∀ dl, ds.getLast? = some dl → alookup dl tokKey = none) :
    (∃ trace callerAfter,
        get_paged true params (ds.map ApiResult.dict)
          = Except.ok (ds, trace, callerAfter)
        ∧ trace.length = ds.length
        ∧ trace.get? 0 = some (params.getD [])
        ∧ ∀ i ti di, trace.get? (i + 1) = some ti → ds.get? i = some di →
            alookup ti tokKey = alookup di tokKey
            ∧ (i + 1 < ds.length → (alookup ti tokKey).isSome = true))
    ∧ (∀ (pre : List PDict) (rest : List ApiResult),
        (∀ d, d ∈ pre → (alookup d tokKey).isSome = true) →
        ∃ e, get_paged true params (pre.map ApiResult.dict ++ ApiResult.nonDict :: rest)
            = Except.error e) := by
  constructor
  · cases params with
    | none =>
      obtain ⟨trace, fin, hloop, hlen, hhead, _, _, hidx⟩ :=
        get_paged_loop_spec ds hne htok hlast []
      refine ⟨trace, none, ?_, hlen, hhead, ?_⟩
      · simp only [get_paged, if_true, Option.getD_none]
        rw [hloop]
      · intro i ti di h1 h2
        refine ⟨hidx i ti di h1 h2, ?_⟩
        intro hi
        rw [hidx i ti di h1 h2]
        exact htok i di hi h2
    | some p0 =>
      obtain ⟨trace, fin, hloop, hlen, hhead, _, _, hidx⟩ :=
        get_paged_loop_spec ds hne htok hlast p0
      refine ⟨trace, if p0.isEmpty then some p0 else some fin, ?_, hlen, hhead, ?_⟩
      · simp only [get_paged, if_true, Option.getD_some]
        rw [hloop]
      · intro i ti di h1 h2
        refine ⟨hidx i ti di h1 h2, ?_⟩
        intro hi
        rw [hidx i ti di h1 h2]
        exact htok i di hi h2
  · intro pre rest hmem
    obtain ⟨e, he⟩ := get_paged_loop_nonDict pre rest (params.getD []) hmem
    refine ⟨e, ?_⟩
    simp only [get_paged, if_true, he]

/-- Witness for `get_paged_pagination`: a concrete two-page Cloud fetch. -/
theorem get_paged_pagination_witness :
    ∃ trace callerAfter,
      get_paged true none
          [ApiResult.dict [(tokKey, "T1")], ApiResult.dict [("total", "2")]]
        = Except.ok ([[(tokKey, "T1")], [("total", "2")]], trace, callerAfter) := by
  have h := (get_paged_pagination [[(tokKey, "T1")], [("total", "2")]] none
    (by simp)
    (by
      intro i di hi hg
      have hi0 : i = 0 := by
        simp only [List.length_cons, List.length_nil] at hi
        omega
      subst hi0
      rw [List.get?_cons_zero] at hg
      injection hg with hg2
      subst hg2
      decide)
    (by
      intro dl hdl
      rw [List.getLast?_cons_cons, List.getLast?_singleton] at hdl
      injection hdl with hdl2
      subst hdl2
      decide)).1
  obtain ⟨trace, callerAfter, heq, _⟩ := h
  exact ⟨trace, callerAfter, heq⟩

/-- Claim C10 counterexample: the caller passes an *empty* dict.  Python's
`params_or_json or {}` treats it as falsy and substitutes a fresh dict, so
after a two-page call the caller's dict is still empty — no `nextPageToken`
was written into the caller's own object. -/
theorem get_paged_empty_params_counterexample :
    get_paged true (some []) [ApiResult.dict [(tokKey, "T")], ApiResult.dict [("x", "y")]]
      = Except.ok ([[(tokKey, "T")], [("x", "y")]], [[], [(tokKey, "T")]], some [])
    ∧ alookup ([] : PDict) tokKey = none := by
  refine ⟨rfl, rfl⟩

/-- Claim C10 (amended): `get_paged` aliases the caller's `params_or_json`
dict only when it is truthy (non-`None` and non-empty) — `params_or_json or
{}` replaces a falsy argument with a fresh dict, so an empty caller dict is
returned unchanged.  When the caller's dict is non-empty and the call spans
`n ≥ 2` pages, the caller's dict after the call contains `nextPageToken`
equal to the penultimate page's token. -/
theorem get_paged_params_mutation (p : PDict) (ds : List PDict)
    (hp : p ≠ [])
    (h2 : 1 < ds.length)
    (htok : ∀ i di, i + 1 < ds.length → ds.get? i = some di →
        (alookup di tokKey).isSome = true)
    (hlast : ∀ dl, ds.getLast? = some dl → alookup dl tokKey = none) :
    (∃ trace fin,
        get_paged true (some p) (ds.map ApiResult.dict) = Except.ok (ds, trace, some fin)
        ∧ (∀ dpen, ds.get? (ds.length - 2) = some dpen →
            alookup fin tokKey = alookup dpen tokKey ∧ (alookup fin tokKey).isSome = true))
    ∧ (∀ (rs : List ApiResult) pages2 trace2 after2,
        get_paged true (some []) rs = Except.ok (pages2, trace2, after2) →
        after2 = some []) := by
  constructor
  · have hne : ds ≠ [] := by
      intro h
      rw [h] at h2
      simp at h2
    obtain ⟨trace, fin, hloop, _, _, _, hpen, _⟩ :=
      get_paged_loop_spec ds hne htok hlast ((some p).getD [])
    refine ⟨trace, fin, ?_, ?_⟩
    · have hpe : p.isEmpty = false := by
        cases p with
        | nil => exact absurd rfl hp
        | cons a l => rfl
      simp only [get_paged, if_true, Option.getD] at hloop ⊢
      rw [hloop, hpe]
      rfl
    · intro dpen hdpen
      have heq := hpen h2 dpen hdpen
      refine ⟨heq, ?_⟩
      rw [heq]
      exact htok (ds.length - 2) dpen (by omega) hdpen
  · intro rs pages2 trace2 after2 hok
    simp only [get_paged, if_true] at hok
    cases hres : get_paged_loop rs ((some ([] : PDict)).getD []) with
    | error e =>
      rw [hres] at hok
      cases hok
    | ok v =>
      obtain ⟨pg, tr, fn⟩ := v
      rw [hres] at hok
      injection hok with hok1
      injection hok1 with _ hok2
      injection hok2 with _ hok3
      exact hok3.symm

/-- Witness for `get_paged_params_mutation`: a non-empty caller dict on a
two-page fetch ends up holding the first page's token. -/
theorem get_paged_params_mutation_witness :
    ∃ trace fin,
      get_paged true (some [("maxResults", "5")])
          [ApiResult.dict [(tokKey, "T9")], ApiResult.dict [("last", "1")]]
        = Except.ok ([[(tokKey, "T9")], [("last", "1")]], trace, some fin)
      ∧ alookup fin tokKey = alookup [(tokKey, "T9")] tokKey := by
  have h := (get_paged_params_mutation [("maxResults", "5")]
    [[(tokKey, "T9")], [("last", "1")]]
    (by simp)
    (by simp only [List.length_cons, List.length_nil]; omega)
    (by
      intro i di hi hg
      have hi0 : i = 0 := by
        simp only [List.length_cons, List.length_nil] at hi
        omega
      subst hi0
      rw [List.get?_cons_zero] at hg
      injection hg with hg2
      subst hg2
      decide)
    (by
      intro dl hdl
      rw [List.getLast?_cons_cons, List.getLast?_singleton] at hdl
      injection hdl with hdl2
      subst hdl2
      decide)).1
  obtain ⟨trace, fin, heq, hprop⟩ := h
  refine ⟨trace, fin, heq, (hprop [(tokKey, "T9")] ?_).1⟩
  rfl

/-! ### C4 / C9 — field mappers (mappers.py)

JSON values are modelled by `JVal` (`null`, strings, nested objects); a
Python dict is an association list of `JVal`s.  `jtruthy` is Python
truthiness (`None`, `""` and `{}` are falsy). -/

/-- A JSON value as handled by the field mappers. -/
inductive JVal where
  | null
  | str (s : String)
  | obj (d : List (String × JVal))

/-- Dict of JSON values. -/
abbrev JDict := List (String × JVal)

/-- Python truthiness of a `JVal`. -/
def jtruthy : JVal → Bool
  | JVal.null => false
  | JVal.str s => !s.isEmpty
  | JVal.obj d => !d.isEmpty

/-- Python `k in d and d[k]` — the key is present with a truthy value. -/
def jtruthyOpt : Option JVal → Bool
  | some v => jtruthy v
  | none => false

/-- Python `k not in d or d[k] is None`. -/
def isNoneOrNull : Option JVal → Bool
  | none => true
  | some JVal.null => true
  | some _ => false

/-- Model of `UserFieldMapper.normalize_user_response` (mappers.py 17–48): empty input
is returned as-is; on a copy of the input, if `accountId` is missing or
`None`, fall back to a truthy `name`, else a truthy `key`; then if
`emailAddress` is missing, set it to `None`. -/
def normalize_user_response (data : JDict) : JDict :=
  if data.isEmpty then data
  else
    let d1 :=
      if isNoneOrNull (alookup data "accountId") then
        if jtruthyOpt (alookup data "name") then
          aset data "accountId" ((alookup data "name").getD JVal.null)
        else if jtruthyOpt (alookup data "key") then
          aset data "accountId" ((alookup data "key").getD JVal.null)
        else data
      else data
    if (alookup d1 "emailAddress").isNone then aset d1 "emailAddress" JVal.null
    else d1

/-- Claim C4: for every non-empty user dict whose `accountId` is missing or
null, the normalized dict's `accountId` equals the input's `name` when that
is present and truthy, else the input's `key` when present and truthy, else
it is left as in the input; and for every non-empty input the result has an
`emailAddress` key, equal to null when the input lacks one and unchanged
otherwise. -/
theorem normalize_user_response_spec (d : JDict) (hne : d ≠ []) :
    (isNoneOrNull (alookup d "accountId") = true →
      (jtruthyOpt (alookup d "name") = true →
        alookup (normalize_user_response d) "accountId" = alookup d "name")
      ∧ (jtruthyOpt (alookup d "name") = false → jtruthyOpt (alookup d "key") = true →
        alookup (normalize_user_response d) "accountId" = alookup d "key")
      ∧ (jtruthyOpt (alookup d "name") = false → jtruthyOpt (alookup d "key") = false →
        alookup (normalize_user_response d) "accountId" = alookup d "accountId"))
    ∧ (alookup (normalize_user_response d) "emailAddress").isSome = true
    ∧ ((alookup d "emailAddress").isNone = true →
        alookup (normalize_user_response d) "emailAddress" = some JVal.null)
    ∧ (∀ v, alookup d "emailAddress" = some v →
        alookup (normalize_user_response d) "emailAddress" = some v) := by
  have hempty : d.isEmpty = false := by
    cases d with
    | nil => exact absurd rfl hne
    | cons a l => rfl
  have haid : ∀ d1 : JDict,
      alookup (if (alookup d1 "emailAddress").isNone then aset d1 "emailAddress" JVal.null
               else d1) "accountId" = alookup d1 "accountId" := by
    intro d1
    by_cases he : (alookup d1 "emailAddress").isNone
    · rw [if_pos he]
      exact alookup_aset_ne d1 "emailAddress" "accountId" JVal.null (by decide)
    · rw [if_neg he]
  constructor
  · intro hmiss
    refine ⟨?_, ?_, ?_⟩
    · intro hname
      cases hv : alookup d "name" with
      | none => rw [hv] at hname; simp [jtruthyOpt] at hname
      | some v =>
        simp only [normalize_user_response, hempty, Bool.false_eq_true, if_false,
          hmiss, hname, if_true]
        rw [haid, hv]
        simp only [Option.getD_some]
        exact alookup_aset_self d "accountId" v
    · intro hname hkey
      cases hv : alookup d "key" with
      | none => rw [hv] at hkey; simp [jtruthyOpt] at hkey
      | some v =>
        simp only [normalize_user_response, hempty, Bool.false_eq_true, if_false,
          hmiss, hname, hkey, if_true]
        rw [haid, hv]
        simp only [Option.getD_some]
        exact alookup_aset_self d "accountId" v
    · intro hname hkey
      simp only [normalize_user_response, hempty, Bool.false_eq_true, if_false,
        hmiss, hname, hkey, if_true]
      rw [haid]
  · simp only [normalize_user_response, hempty, Bool.false_eq_true, if_false]
    refine ⟨?_, ?_, ?_⟩
    all_goals
      generalize hd1 : (if isNoneOrNull (alookup d "accountId") = true then
          if jtruthyOpt (alookup d "name") = true then
            aset d "accountId" ((alookup d "name").getD JVal.null)
          else if jtruthyOpt (alookup d "key") = true then
            aset d "accountId" ((alookup d "key").getD JVal.null)
          else d
        else d) = d1
    · by_cases he : (alookup d1 "emailAddress").isNone
      · rw [if_pos he, alookup_aset_self]
        rfl
      · rw [if_neg he]
        cases hv : alookup d1 "emailAddress" with
        | none => rw [hv] at he; simp at he
        | some v => rfl
    · intro hmail
      have hd1mail : alookup d1 "emailAddress" = alookup d "emailAddress" := by
        rw [← hd1]
        by_cases hm : isNoneOrNull (alookup d "accountId") = true
        · rw [if_pos hm]
          by_cases hn : jtruthyOpt (alookup d "name") = true
          · rw [if_pos hn]
            exact alookup_aset_ne d "accountId" "emailAddress" _ (by decide)
          · rw [if_neg hn]
            by_cases hk : jtruthyOpt (alookup d "key") = true
            · rw [if_pos hk]
              exact alookup_aset_ne d "accountId" "emailAddress" _ (by decide)
            · rw [if_neg hk]
        · rw [if_neg hm]
      have : (alookup d1 "emailAddress").isNone = true := by
        rw [hd1mail]
        exact hmail
      rw [if_pos this]
      exact alookup_aset_self d1 "emailAddress" JVal.null
    · intro v hv
      have hd1mail : alookup d1 "emailAddress" = alookup d "emailAddress" := by
        rw [← hd1]
        by_cases hm : isNoneOrNull (alookup d "accountId") = true
        · rw [if_pos hm]
          by_cases hn : jtruthyOpt (alookup d "name") = true
          · rw [if_pos hn]
            exact alookup_aset_ne d "accountId" "emailAddress" _ (by decide)
          · rw [if_neg hn]
            by_cases hk : jtruthyOpt (alookup d "key") = true
            · rw [if_pos hk]
              exact alookup_aset_ne d "accountId" "emailAddress" _ (by decide)
            · rw [if_neg hk]
        · rw [if_neg hm]
      have hsome : (alookup d1 "emailAddress").isNone = false := by
        rw [hd1mail, hv]
        rfl
      rw [if_neg (by rw [hsome]; exact Bool.false_ne_true)]
      rw [hd1mail, hv]

/-- Witness for `normalize_user_response_spec`: a Server 6.x user object
with `name` but no `accountId` and no `emailAddress`. -/
theorem normalize_user_response_spec_witness :
    alookup (normalize_user_response [("name", JVal.str "bob")]) "accountId"
      = some (JVal.str "bob")
    ∧ alookup (normalize_user_response [("name", JVal.str "bob")]) "emailAddress"
      = some JVal.null := by
  have h := normalize_user_response_spec [("name", JVal.str "bob")] (by simp)
  refine ⟨?_, h.2.2.1 rfl⟩
  have := (h.1 rfl).1 rfl
  rw [this]
  rfl

/-- The shared per-key step of `IssueFieldMapper.normalize_issue_response`
(mappers.py 110–125): `if k in fields and isinstance(fields[k], dict):
fields[k] = UserFieldMapper.normalize_user_response(fields[k])`. -/
def normFieldPure (f : JDict) (k : String) : JDict :=
  match alookup f k with
  | some (JVal.obj u) => aset f k (JVal.obj (normalize_user_response u))
  | _ => f

/-- Model of `IssueFieldMapper.normalize_issue_response` (mappers.py 88–129): empty
input returned as-is; on a copy, if `fields` is present and a dict, apply
the user mapper to its `assignee`, `reporter` and `creator` sub-dicts and
store the updated `fields`; all other keys pass through. -/
def normalize_issue_response (data : JDict) : JDict :=
  if data.isEmpty then data
  else
    match alookup data "fields" with
    | some (JVal.obj f) =>
      let f1 := normFieldPure f "assignee"
      let f2 := normFieldPure f1 "reporter"
      let f3 := normFieldPure f2 "creator"
      aset data "fields" (JVal.obj f3)
    | _ => data

theorem alookup_normFieldPure_ne (f : JDict) (k k2 : String) (h : k2 ≠ k) :
    alookup (normFieldPure f k) k2 = alookup f k2 := by
  unfold normFieldPure
  cases hv : alookup f k with
  | none => rfl
  | some v =>
    cases v with
    | null => rfl
    | str s => rfl
    | obj u => exact alookup_aset_ne f k k2 _ h

theorem alookup_normFieldPure_obj (f : JDict) (k : String) (u : JDict)
    (h : alookup f k = some (JVal.obj u)) :
    alookup (normFieldPure f k) k = some (JVal.obj (normalize_user_response u)) := by
  unfold normFieldPure
  rw [h]
  exact alookup_aset_self f k _

theorem alookup_normFieldPure_self (f : JDict) (k : String) :
    alookup (normFieldPure f k) k = alookup f k
    ∨ ∃ u, alookup f k = some (JVal.obj u)
        ∧ alookup (normFieldPure f k) k = some (JVal.obj (normalize_user_response u)) := by
  cases hv : alookup f k with
  | none => left; unfold normFieldPure; rw [hv]; exact hv
  | some v =>
    cases v with
    | null => left; unfold normFieldPure; rw [hv]; exact hv
    | str s => left; unfold normFieldPure; rw [hv]; exact hv
    | obj u => right; exact ⟨u, rfl, alookup_normFieldPure_obj f k u hv⟩

/-! ### C9 — non-mutation of inputs (mappers.py)

To state that the mappers never mutate their argument, Python objects are
modelled explicitly: a `Heap` of dict cells addressed by index, dict values
being `null`, strings or references to other cells.  `.copy()` allocates a
fresh cell; every subsequent item assignment in the source targets only
freshly allocated cells, which is what the non-mutation theorems certify:
all pre-existing cells are bit-for-bit unchanged. -/

/-- Heap values: null, strings, or references to heap-allocated dicts. -/
inductive HVal where
  | null
  | str (s : String)
  | ref (a : Nat)
deriving DecidableEq

/-- A dict cell on the heap. -/
abbrev HDict := List (String × HVal)

/-- The heap: the address of a dict object is its index in `cells`. -/
structure Heap where
  cells : List HDict
deriving DecidableEq

/-- Dereference an address (out-of-range reads give an empty dict). -/
def Heap.read (h : Heap) (a : Nat) : HDict := (h.cells.get? a).getD []

/-- Python `d.copy()`: allocate a fresh cell holding `d`, returning its address. -/
def Heap.alloc (h : Heap) (d : HDict) : Heap × Nat :=
  (⟨h.cells ++ [d]⟩, h.cells.length)

/-- Overwrite the cell at address `a`. -/
def Heap.write (h : Heap) (a : Nat) (d : HDict) : Heap := ⟨h.cells.set a d⟩

/-- Python `obj[k] = v` on the heap object at address `a`. -/
def Heap.writeKey (h : Heap) (a : Nat) (k : String) (v : HVal) : Heap :=
  h.write a (aset (h.read a) k v)

/-- Python truthiness of a heap value (a dict reference is truthy iff the
referenced dict is non-empty). -/
def hTruthy (h : Heap) : HVal → Bool
  | HVal.null => false
  | HVal.str s => !s.isEmpty
  | HVal.ref a => !(h.read a).isEmpty

/-- Python `k in d and d[k]` on the heap. -/
def hTruthyOpt (h : Heap) : Option HVal → Bool
  | some v => hTruthy h v
  | none => false

/-- Python `k not in d or d[k] is None` on the heap. -/
def isNoneOrNullH : Option HVal → Bool
  | none => true
  | some HVal.null => true
  | some _ => false

/-- The accountId-fallback block of `normalize_user_response` acting on the
fresh copy at address `b`. -/
def userStep1 (h : Heap) (b : Nat) : Heap :=
  if isNoneOrNullH (alookup (h.read b) "accountId") then
    if hTruthyOpt h (alookup (h.read b) "name") then
      h.writeKey b "accountId" ((alookup (h.read b) "name").getD HVal.null)
    else if hTruthyOpt h (alookup (h.read b) "key") then
      h.writeKey b "accountId" ((alookup (h.read b) "key").getD HVal.null)
    else h
  else h

/-- The emailAddress-defaulting block of `normalize_user_response` acting on
the fresh copy at address `b`. -/
def userStep2 (h : Heap) (b : Nat) : Heap :=
  if (alookup (h.read b) "emailAddress").isNone then
    h.writeKey b "emailAddress" HVal.null
  else h

/-- Heap version of `UserFieldMapper.normalize_user_response`: falsy input is
returned as the same object; otherwise `normalized = data.copy()` allocates,
then the two mutation blocks run on the fresh cell only. -/
def normalize_user_response_h (h : Heap) (a : Nat) : Heap × Nat :=
  if (h.read a).isEmpty then (h, a)
  else
    let p := h.alloc (h.read a)
    (userStep2 (userStep1 p.1 p.2) p.2, p.2)

/-- Heap version of the shared per-key step of the issue/comment mappers:
`if k in d and isinstance(d[k], dict): d[k] = normalize_user_response(d[k])`
on the (fresh) cell at `fb`. -/
def normField_h (h : Heap) (fb : Nat) (k : String) : Heap :=
  match alookup (h.read fb) k with
  | some (HVal.ref ua) =>
    let p := normalize_user_response_h h ua
    p.1.writeKey fb k (HVal.ref p.2)
  | _ => h

/-- Heap version of `IssueFieldMapper.normalize_issue_response`:
`normalized = data.copy()`; if `fields` is a dict, `fields = normalized["fields"].copy()`,
the three user sub-fields are normalized on the fresh `fields` cell, and
`normalized["fields"]` is repointed at it. -/
def normalize_issue_response_h (h : Heap) (a : Nat) : Heap × Nat :=
  if (h.read a).isEmpty then (h, a)
  else
    let p := h.alloc (h.read a)
    match alookup (p.1.read p.2) "fields" with
    | some (HVal.ref fa) =>
      let q := p.1.alloc (p.1.read fa)
      let h3 := normField_h q.1 q.2 "assignee"
      let h4 := normField_h h3 q.2 "reporter"
      let h5 := normField_h h4 q.2 "creator"
      (h5.writeKey p.2 "fields" (HVal.ref q.2), p.2)
    | _ => (p.1, p.2)

/-- Heap version of `CommentFieldMapper.normalize_comment_response`:
`normalized = data.copy()`, then `author` and `updateAuthor` are normalized
on the fresh cell. -/
def normalize_comment_response_h (h : Heap) (a : Nat) : Heap × Nat :=
  if (h.read a).isEmpty then (h, a)
  else
    let p := h.alloc (h.read a)
    (normField_h (normField_h p.1 p.2 "author") p.2 "updateAuthor", p.2)

/-- All cells below `n` — the objects that existed before the call — are
unchanged, and the heap has only grown. -/
def UnchangedBelow (n : Nat) (h h2 : Heap) : Prop :=
  h.cells.length ≤ h2.cells.length
  ∧ ∀ c, c < n → h2.cells.get? c = h.cells.get? c

theorem unchangedBelow_refl (n : Nat) (h : Heap) : UnchangedBelow n h h :=
  ⟨Nat.le_refl _, fun _ _ => rfl⟩

theorem unchangedBelow_trans {n : Nat} {h h2 h3 : Heap}
    (a : UnchangedBelow n h h2) (b : UnchangedBelow n h2 h3) :
    UnchangedBelow n h h3 :=
  ⟨Nat.le_trans a.1 b.1, fun c hc => (b.2 c hc).trans (a.2 c hc)⟩

theorem get?_set_ne {α : Type} (l : List α) (a b : Nat) (x : α) (h : b ≠ a) :
    (l.set a x).get? b = l.get? b := by
  induction l generalizing a b with
  | nil => rfl
  | cons y l ih =>
    cases a with
    | zero =>
      cases b with
      | zero => exact absurd rfl h
      | succ j => rfl
    | succ i =>
      cases b with
      | zero => rfl
      | succ j =>
        simp only [List.set, List.get?_cons_succ]
        exact ih i j (fun hh => h (by rw [hh]))

theorem unchangedBelow_alloc (n : Nat) (h : Heap) (d : HDict)
    (hn : n ≤ h.cells.length) : UnchangedBelow n h (h.alloc d).1 := by
  refine ⟨?_, ?_⟩
  · simp [Heap.alloc]
  · intro c hc
    simp only [Heap.alloc]
    exact List.get?_append (Nat.lt_of_lt_of_le hc hn)

theorem unchangedBelow_write (n : Nat) (h : Heap) (b : Nat) (d : HDict)
    (hb : n ≤ b) : UnchangedBelow n h (h.write b d) := by
  refine ⟨?_, ?_⟩
  · simp [Heap.write]
  · intro c hc
    simp only [Heap.write]
    exact get?_set_ne h.cells b c d (by omega)

theorem unchangedBelow_writeKey (n : Nat) (h : Heap) (b : Nat) (k : String)
    (v : HVal) (hb : n ≤ b) : UnchangedBelow n h (h.writeKey b k v) :=
  unchangedBelow_write n h b _ hb

theorem unchangedBelow_userStep1 (n : Nat) (h : Heap) (b : Nat) (hb : n ≤ b) :
    UnchangedBelow n h (userStep1 h b) := by
  unfold userStep1
  by_cases h1 : isNoneOrNullH (alookup (h.read b) "accountId") = true
  · rw [if_pos h1]
    by_cases h2 : hTruthyOpt h (alookup (h.read b) "name") = true
    · rw [if_pos h2]
      exact unchangedBelow_writeKey n h b _ _ hb
    · rw [if_neg h2]
      by_cases h3 : hTruthyOpt h (alookup (h.read b) "key") = true
      · rw [if_pos h3]
        exact unchangedBelow_writeKey n h b _ _ hb
      · rw [if_neg h3]
        exact unchangedBelow_refl n h
  · rw [if_neg h1]
    exact unchangedBelow_refl n h

theorem unchangedBelow_userStep2 (n : Nat) (h : Heap) (b : Nat) (hb : n ≤ b) :
    UnchangedBelow n h (userStep2 h b) := by
  unfold userStep2
  by_cases h1 : (alookup (h.read b) "emailAddress").isNone = true
  · rw [if_pos h1]
    exact unchangedBelow_writeKey n h b _ _ hb
  · rw [if_neg h1]
    exact unchangedBelow_refl n h

theorem unchangedBelow_user_h (n : Nat) (h : Heap) (a : Nat)
    (hn : n ≤ h.cells.length) :
    UnchangedBelow n h (normalize_user_response_h h a).1 := by
  unfold normalize_user_response_h
  by_cases he : (h.read a).isEmpty = true
  · rw [if_pos he]
    exact unchangedBelow_refl n h
  · rw [if_neg he]
    have s1 := unchangedBelow_alloc n h (h.read a) hn
    have hb : n ≤ (h.alloc (h.read a)).2 := hn
    have s2 := unchangedBelow_userStep1 n (h.alloc (h.read a)).1
      (h.alloc (h.read a)).2 hb
    have s3 := unchangedBelow_userStep2 n
      (userStep1 (h.alloc (h.read a)).1 (h.alloc (h.read a)).2)
      (h.alloc (h.read a)).2 hb
    exact unchangedBelow_trans (unchangedBelow_trans s1 s2) s3

theorem unchangedBelow_normField_h (n : Nat) (h : Heap) (fb : Nat) (k : String)
    (hn : n ≤ h.cells.length) (hfb : n ≤ fb) :
    UnchangedBelow n h (normField_h h fb k) := by
  unfold normField_h
  cases hv : alookup (h.read fb) k with
  | none => exact unchangedBelow_refl n h
  | some v =>
    cases v with
    | null => exact unchangedBelow_refl n h
    | str s => exact unchangedBelow_refl n h
    | ref ua =>
      have s1 := unchangedBelow_user_h n h ua hn
      have s2 := unchangedBelow_writeKey n (normalize_user_response_h h ua).1 fb
        k (HVal.ref (normalize_user_response_h h ua).2) hfb
      exact unchangedBelow_trans s1 s2

theorem unchangedBelow_issue_h (h : Heap) (a : Nat) :
    UnchangedBelow h.cells.length h (normalize_issue_response_h h a).1 := by
  simp only [normalize_issue_response_h]
  by_cases he : (h.read a).isEmpty = true
  · rw [if_pos he]
    exact unchangedBelow_refl _ h
  · rw [if_neg he]
    have s1 := unchangedBelow_alloc h.cells.length h (h.read a) (Nat.le_refl _)
    split
    · rename_i fa _
      have hlen1 : h.cells.length ≤ (h.alloc (h.read a)).1.cells.length := s1.1
      have s2 := unchangedBelow_alloc h.cells.length (h.alloc (h.read a)).1
        ((h.alloc (h.read a)).1.read fa) hlen1
      have hfb : h.cells.length ≤
          ((h.alloc (h.read a)).1.alloc ((h.alloc (h.read a)).1.read fa)).2 :=
        hlen1
      have hlen2 : h.cells.length ≤
          ((h.alloc (h.read a)).1.alloc ((h.alloc (h.read a)).1.read fa)).1.cells.length :=
        Nat.le_trans hlen1 s2.1
      have s3 := unchangedBelow_normField_h h.cells.length
        ((h.alloc (h.read a)).1.alloc ((h.alloc (h.read a)).1.read fa)).1
        ((h.alloc (h.read a)).1.alloc ((h.alloc (h.read a)).1.read fa)).2
        "assignee" hlen2 hfb
      have s4 := unchangedBelow_normField_h h.cells.length
        (normField_h ((h.alloc (h.read a)).1.alloc ((h.alloc (h.read a)).1.read fa)).1
          ((h.alloc (h.read a)).1.alloc ((h.alloc (h.read a)).1.read fa)).2 "assignee")
        ((h.alloc (h.read a)).1.alloc ((h.alloc (h.read a)).1.read fa)).2
        "reporter" (Nat.le_trans hlen2 s3.1) hfb
      have s5 := unchangedBelow_normField_h h.cells.length
        (normField_h
          (normField_h ((h.alloc (h.read a)).1.alloc ((h.alloc (h.read a)).1.read fa)).1
            ((h.alloc (h.read a)).1.alloc ((h.alloc (h.read a)).1.read fa)).2 "assignee")
          ((h.alloc (h.read a)).1.alloc ((h.alloc (h.read a)).1.read fa)).2 "reporter")
        ((h.alloc (h.read a)).1.alloc ((h.alloc (h.read a)).1.read fa)).2
        "creator" (Nat.le_trans (Nat.le_trans hlen2 s3.1) s4.1) hfb
      have hb : h.cells.length ≤ (h.alloc (h.read a)).2 := Nat.le_refl _
      have s6 := unchangedBelow_writeKey h.cells.length
        (normField_h
          (normField_h
            (normField_h ((h.alloc (h.read a)).1.alloc ((h.alloc (h.read a)).1.read fa)).1
              ((h.alloc (h.read a)).1.alloc ((h.alloc (h.read a)).1.read fa)).2 "assignee")
            ((h.alloc (h.read a)).1.alloc ((h.alloc (h.read a)).1.read fa)).2 "reporter")
          ((h.alloc (h.read a)).1.alloc ((h.alloc (h.read a)).1.read fa)).2 "creator")
        (h.alloc (h.read a)).2 "fields"
        (HVal.ref ((h.alloc (h.read a)).1.alloc ((h.alloc (h.read a)).1.read fa)).2) hb
      exact unchangedBelow_trans
        (unchangedBelow_trans
          (unchangedBelow_trans
            (unchangedBelow_trans (unchangedBelow_trans s1 s2) s3) s4) s5) s6
    · exact s1

theorem unchangedBelow_comment_h (h : Heap) (a : Nat) :
    UnchangedBelow h.cells.length h (normalize_comment_response_h h a).1 := by
  set n := h.cells.length with hn
  unfold normalize_comment_response_h
  by_cases he : (h.read a).isEmpty = true
  · rw [if_pos he]
    exact unchangedBelow_refl n h
  · rw [if_neg he]
    have s1 := unchangedBelow_alloc n h (h.read a) (Nat.le_refl _)
    have hb : n ≤ (h.alloc (h.read a)).2 := Nat.le_refl _
    have s2 := unchangedBelow_normField_h n (h.alloc (h.read a)).1
      (h.alloc (h.read a)).2 "author" s1.1 hb
    have s3 := unchangedBelow_normField_h n
      (normField_h (h.alloc (h.read a)).1 (h.alloc (h.read a)).2 "author")
      (h.alloc (h.read a)).2 "updateAuthor"
      (Nat.le_trans s1.1 s2.1) hb
    exact unchangedBelow_trans (unchangedBelow_trans s1 s2) s3

/-- Claim C9: `normalize_issue_response` returns a dict equal to the input on
every key except `fields`; inside `fields` every sub-key except `assignee`,
`reporter` and `creator` is unchanged, and those three get the user mapper
applied (when they hold dicts); and none of `normalize_issue_response`,
`normalize_user_response`, `normalize_comment_response` mutates its input
object or any nested object: on the heap model every pre-existing cell is
unchanged after the call. -/
theorem mappers_frame_spec (d : JDict) (h : Heap) (a : Nat) :
    (∀ k, k ≠ "fields" → alookup (normalize_issue_response d) k = alookup d k)
    ∧ (∀ f, alookup d "fields" = some (JVal.obj f) →
        ∃ f3, alookup (normalize_issue_response d) "fields" = some (JVal.obj f3)
          ∧ (∀ k, k ≠ "assignee" → k ≠ "reporter" → k ≠ "creator" →
              alookup f3 k = alookup f k)
          ∧ (∀ u, alookup f "assignee" = some (JVal.obj u) →
              alookup f3 "assignee" = some (JVal.obj (normalize_user_response u)))
          ∧ (∀ u, alookup f "reporter" = some (JVal.obj u) →
              alookup f3 "reporter" = some (JVal.obj (normalize_user_response u)))
          ∧ (∀ u, alookup f "creator" = some (JVal.obj u) →
              alookup f3 "creator" = some (JVal.obj (normalize_user_response u))))
    ∧ UnchangedBelow h.cells.length h (normalize_issue_response_h h a).1
    ∧ UnchangedBelow h.cells.length h (normalize_user_response_h h a).1
    ∧ UnchangedBelow h.cells.length h (normalize_comment_response_h h a).1 := by
  refine ⟨?_, ?_, unchangedBelow_issue_h h a, unchangedBelow_user_h _ h a (Nat.le_refl _),
    unchangedBelow_comment_h h a⟩
  · intro k hk
    simp only [normalize_issue_response]
    by_cases he : d.isEmpty = true
    · rw [if_pos he]
    · rw [if_neg he]
      split
    

      · exact alookup_aset_ne d "fields" k _ hk
      · rfl
  · intro f hf
    have hne : d.isEmpty = false := by
      cases d with
      | nil => simp [alookup] at hf
      | cons p l => rfl
    refine ⟨normFieldPure (normFieldPure (normFieldPure f "assignee") "reporter") "creator",
      ?_, ?_, ?_, ?_, ?_⟩
    · simp only [normalize_issue_response, hne, Bool.false_eq_true, if_false, hf]
      exact alookup_aset_self d "fields" _
    · intro k hka hkr hkc
      rw [alookup_normFieldPure_ne _ "creator" k hkc,
        alookup_normFieldPure_ne _ "reporter" k hkr,
        alookup_normFieldPure_ne _ "assignee" k hka]
    · intro u hu
      rw [alookup_normFieldPure_ne _ "creator" "assignee" (by decide),
        alookup_normFieldPure_ne _ "reporter" "assignee" (by decide)]
      exact alookup_normFieldPure_obj f "assignee" u hu
    · intro u hu
      rw [alookup_normFieldPure_ne _ "creator" "reporter" (by decide)]
      exact alookup_normFieldPure_obj _ "reporter" u
        (by rw [alookup_normFieldPure_ne _ "assignee" "reporter" (by decide)]; exact hu)
    · intro u hu
      exact alookup_normFieldPure_obj _ "creator" u
        (by rw [alookup_normFieldPure_ne _ "reporter" "creator" (by decide),
             alookup_normFieldPure_ne _ "assignee" "creator" (by decide)]; exact hu)

/-- Witness for `mappers_frame_spec`: a concrete issue whose `key` passes
through unchanged and whose `fields.assignee` gets the user mapper applied. -/
theorem mappers_frame_spec_witness :
    alookup (normalize_issue_response
        [("key", JVal.str "PROJ-1"),
         ("fields", JVal.obj [("assignee", JVal.obj [("name", JVal.str "bob")])])])
      "key" = some (JVal.str "PROJ-1")
    ∧ (∃ f3, alookup (normalize_issue_response
        [("key", JVal.str "PROJ-1"),
         ("fields", JVal.obj [("assignee", JVal.obj [("name", JVal.str "bob")])])])
      "fields" = some (JVal.obj f3)
      ∧ alookup f3 "assignee"
          = some (JVal.obj (normalize_user_response [("name", JVal.str "bob")]))) := by
  have h := mappers_frame_spec
    [("key", JVal.str "PROJ-1"),
     ("fields", JVal.obj [("assignee", JVal.obj [("name", JVal.str "bob")])])]
    ⟨[]⟩ 0
  refine ⟨h.1 "key" (by decide), ?_⟩
  obtain ⟨f3, hf3, _, hassign, _, _⟩ := h.2.1 [("assignee", JVal.obj [("name", JVal.str "bob")])] rfl
  exact ⟨f3, hf3, hassign [("name", JVal.str "bob")] rfl⟩

/-! ### C5 — auth-type resolution of `JiraConfig.from_env` (config.py, 196–228)

Environment values are `Option String` (`None` when unset); Python
truthiness of such a value is "set and non-empty".  `is_atlassian_cloud_url`
and `get_oauth_config_from_env` are external collaborators, passed in as the
boolean `is_cloud` / `oauth_config` inputs. -/

/-- Python truthiness of an optional environment string. -/
def envTruthy : Option String → Bool
  | some s => !s.isEmpty
  | none => false

theorem isEmpty_false_of_ne (s : String) (h : s ≠ "") : s.isEmpty = false := by
  cases hh : s.isEmpty with
  | false => rfl
  | true => exact absurd ((String.isEmpty_iff s).mp hh) h

theorem envTruthy_some_of_ne (s : String) (h : s ≠ "") : envTruthy (some s) = true := by
  simp [envTruthy, isEmpty_false_of_ne s h]

theorem cookieTruthy_some_of_ne (s : String) (h : s ≠ "") :
    cookieTruthy (some s) = true := by
  simp [cookieTruthy, isEmpty_false_of_ne s h]

/-- The resolved authentication strategies. -/
inductive AuthType where
  | basic
  | pat
  | oauth
deriving DecidableEq

/-- The `auth_type` selection of `JiraConfig.from_env`: Cloud (and not
server_6x) prefers OAuth, then username+api-token, else fails; server_6x
requires username plus password-or-token; regular Server/DC prefers a
personal token (even when OAuth is also configured — logged, not fatal),
then OAuth, then username+api-token, else fails. -/
def resolve_auth_type (is_cloud is_server_6x : Bool)
    (username api_token personal_token jira_password : Option String)
    (oauth_config : Bool) : Except String AuthType :=
  if is_cloud && !is_server_6x then
    if oauth_config then Except.ok AuthType.oauth
    else if envTruthy username && envTruthy api_token then Except.ok AuthType.basic
    else Except.error "Cloud authentication requires JIRA_USERNAME and JIRA_API_TOKEN, or OAuth configuration"
  else
    if is_server_6x then
      if envTruthy username && (envTruthy jira_password || envTruthy api_token) then
        Except.ok AuthType.basic
      else
        Except.error "Server 6.x authentication requires JIRA_USERNAME and JIRA_PASSWORD (or JIRA_API_TOKEN)"
    else
      if envTruthy personal_token then Except.ok AuthType.pat
      else if oauth_config then Except.ok AuthType.oauth
      else if envTruthy username && envTruthy api_token then Except.ok AuthType.basic
      else Except.error "Server/Data Center authentication requires JIRA_PERSONAL_TOKEN or JIRA_USERNAME and JIRA_API_TOKEN"

/-- Claim C5: on Server/DC (non-cloud URL, mode not server_6x) with both a
personal token and an OAuth bundle configured, resolution yields `pat`; and
on Cloud with neither an OAuth bundle nor a username, resolution fails with
a configuration error, whatever the other credentials are. -/
theorem resolve_auth_type_spec
    (username api_token personal_token2 jira_password : Option String)
    (pt : String) (hpt : pt ≠ "") :
    resolve_auth_type false false username api_token (some pt) jira_password true
      = Except.ok AuthType.pat
    ∧ ∃ e, resolve_auth_type true false none api_token personal_token2 jira_password false
      = Except.error e := by
  constructor
  · simp [resolve_auth_type, envTruthy_some_of_ne pt hpt]
  · refine ⟨"Cloud authentication requires JIRA_USERNAME and JIRA_API_TOKEN, or OAuth configuration", ?_⟩
    simp [resolve_auth_type, envTruthy]

/-- Witness for `resolve_auth_type_spec` at concrete credentials. -/
theorem resolve_auth_type_spec_witness :
    resolve_auth_type false false (some "admin") none (some "PAT-123") none true
      = Except.ok AuthType.pat :=
  (resolve_auth_type_spec (some "admin") none none none "PAT-123" (by decide)).1

/-! ### C6 — `_validate_authentication` with cookie refresh (client.py, 243–254
and 278–324)

The two `self.jira.myself()` calls and `_establish_cookie_session` are
external collaborators, passed as outcome oracles.  The model returns the
observable result together with how many times establishment was attempted
and how many `myself()` calls were made. -/

/-- Outcome of one `self.jira.myself()` call: a value (truthy or falsy), an
`HTTPError` carrying a status code, or some other exception. -/
inductive MyselfOutcome where
  | ok (truthy : Bool)
  | httpError (status : Nat)
  | otherError
deriving DecidableEq

/-- Observable result of `_validate_authentication`: whether an
`MCPAtlassianAuthenticationError` was raised, how many times
`_establish_cookie_session` ran, and how many `myself()` calls were made. -/
structure ValidateResult where
  raised : Bool
  establishCalls : Nat
  myselfCalls : Nat
deriving DecidableEq

/-- Model of `_validate_authentication`: call `myself()`; on success (truthy or not)
return normally.  On an `HTTPError` with status 401 while cookie auth is
configured, run `_refresh_cookie_session` — which re-runs
`_establish_cookie_session` exactly once, only if a truthy cookie token is
cached — then retry `myself()` once; a truthy retry returns normally, and
any failure (of the refresh or of the retry) falls through to raise an
authentication error wrapping the original.  Every other exception raises
the authentication error immediately. -/
def validate_authentication (cookie : Option String) (jira_auth_cookie : Bool)
    (first : MyselfOutcome) (establish : Except String (Option String))
    (retry : MyselfOutcome) : ValidateResult :=
  match first with
  | MyselfOutcome.ok _ => { raised := false, establishCalls := 0, myselfCalls := 1 }
  | MyselfOutcome.httpError status =>
    if status = 401 && jira_auth_cookie then
      if cookieTruthy cookie then
        match establish with
        | Except.error _ => { raised := true, establishCalls := 1, myselfCalls := 1 }
        | Except.ok _ =>
          match retry with
          | MyselfOutcome.ok true =>
            { raised := false, establishCalls := 1, myselfCalls := 2 }
          | _ => { raised := true, establishCalls := 1, myselfCalls := 2 }
      else
        match retry with
        | MyselfOutcome.ok true =>
          { raised := false, establishCalls := 0, myselfCalls := 2 }
        | _ => { raised := true, establishCalls := 0, myselfCalls := 2 }
    else
      { raised := true, establishCalls := 0, myselfCalls := 1 }
  | MyselfOutcome.otherError => { raised := true, establishCalls := 0, myselfCalls := 1 }

/-- Claim C6: when a request returns 401 while a cookie session is active
(truthy cached token, cookie auth configured), the client re-runs session
establishment exactly once and retries the original call at most once; if
re-establishment fails, the failure propagates (an authentication error is
raised) and no further establishment attempt happens in that execution. -/
theorem validate_authentication_spec (tok : String) (htok : tok ≠ "")
    (establish : Except String (Option String)) (retry : MyselfOutcome) :
    (validate_authentication (some tok) true (MyselfOutcome.httpError 401)
        establish retry).establishCalls = 1
    ∧ (validate_authentication (some tok) true (MyselfOutcome.httpError 401)
        establish retry).myselfCalls ≤ 2
    ∧ (∀ e, establish = Except.error e →
        (validate_authentication (some tok) true (MyselfOutcome.httpError 401)
            establish retry).raised = true
        ∧ (validate_authentication (some tok) true (MyselfOutcome.httpError 401)
            establish retry).establishCalls = 1) := by
  have hct : cookieTruthy (some tok) = true := cookieTruthy_some_of_ne tok htok
  refine ⟨?_, ?_, ?_⟩
  · simp only [validate_authentication, hct, eq_self_iff_true, decide_True,
      Bool.and_self, if_true]
    cases establish with
    | error e => rfl
    | ok c =>
      cases retry with
      | ok t => cases t <;> rfl
      | httpError s => rfl
      | otherError => rfl
  · simp only [validate_authentication, hct, eq_self_iff_true, decide_True,
      Bool.and_self, if_true]
    cases establish with
    | error e =>
      show (1 : Nat) ≤ 2
      omega
    | ok c =>
      cases retry with
      | ok t =>
        cases t
        · show (2 : Nat) ≤ 2
          omega
        · show (2 : Nat) ≤ 2
          omega
      | httpError s =>
        show (2 : Nat) ≤ 2
        omega
      | otherError =>
        show (2 : Nat) ≤ 2
        omega
  · intro e he
    subst he
    simp [validate_authentication, hct]

/-- Witness for `validate_authentication_spec`: a failing re-establishment
raises and establishes exactly once. -/
theorem validate_authentication_spec_witness :
    (validate_authentication (some "abc") true (MyselfOutcome.httpError 401)
        (Except.error "down") MyselfOutcome.otherError).establishCalls = 1
    ∧ (validate_authentication (some "abc") true (MyselfOutcome.httpError 401)
        (Except.error "down") MyselfOutcome.otherError).raised = true := by
  have h := validate_authentication_spec "abc" (by decide)
    (Except.error "down") MyselfOutcome.otherError
  exact ⟨h.1, (h.2.2 "down" rfl).1⟩

/-! ### C7 — `configure_ssl_verification` (ssl.py, lines 73–151)

The session's SSL-relevant state is modelled explicitly (attached client
cert, mounted relaxed adapters, verify setting).  `urlparse(url).netloc`
and `os.path.exists(ca_file)` are external collaborators passed in as the
`netloc` string and the `ca_file_exists` flag.  The function performs no
HTTP request at all; raising is modelled as `Except.error`, returned before
any session field is touched. -/

/-- The `session.verify` field: a boolean or a CA-bundle path. -/
inductive VerifySetting where
  | flag (b : Bool)
  | caPath (p : String)
deriving DecidableEq

/-- SSL-relevant state of a `requests` session. -/
structure SSLSession where
  cert : Option (String × String)
  mounts : List String
  verify : VerifySetting
deriving DecidableEq

/-- The part of `configure_ssl_verification` after the client-certificate
block: apply the TLS-insecure override, mount relaxed adapters for the
domain when verification is off, else install an existing CA bundle. -/
def ssl_after_cert (ssl_verify : Bool) (ca_file : Option String)
    (tls_insecure_env ca_file_exists : Bool) (netloc : String)
    (s : SSLSession) : SSLSession :=
  let sv := if tls_insecure_env then false else ssl_verify
  if sv = false then
    { s with mounts := s.mounts ++ ["https://" ++ netloc, "http://" ++ netloc] }
  else
    match ca_file with
    | some ca =>
      if ca.isEmpty then s
      else if ca_file_exists then { s with verify := VerifySetting.caPath ca } else s
    | none => s

/-- Model of `configure_ssl_verification`: when both `client_cert` and `client_key`
are string paths, a non-empty `client_key_password` raises a `ValueError`
before the certificate is attached and before anything else happens;
otherwise the certificate is attached and the TLS policy is applied. -/
def configure_ssl_verification (ssl_verify : Bool)
    (client_cert client_key client_key_password : Option String)
    (ca_file : Option String) (tls_insecure_env ca_file_exists : Bool)
    (netloc : String) (s : SSLSession) : Except String SSLSession :=
  match client_cert, client_key with
  | some cert, some key =>
    if envTruthy client_key_password then
      Except.error "client certificate authentication with encrypted private keys is not supported"
    else
      Except.ok (ssl_after_cert ssl_verify ca_file tls_insecure_env ca_file_exists netloc
        { s with cert := some (cert, key) })
  | _, _ =>
    Except.ok (ssl_after_cert ssl_verify ca_file tls_insecure_env ca_file_exists netloc s)

/-- Claim C7: whenever `client_cert` and `client_key` are both set and
`client_key_password` is a non-empty string, SSL configuration raises a
configuration error, for every session state and every other setting — in
particular no session with the certificate attached is ever produced. -/
theorem configure_ssl_verification_spec (cert key pw : String) (hpw : pw ≠ "")
    (ssl_verify : Bool) (ca_file : Option String)
    (tls_insecure_env ca_file_exists : Bool) (netloc : String) (s : SSLSession) :
    configure_ssl_verification ssl_verify (some cert) (some key) (some pw)
        ca_file tls_insecure_env ca_file_exists netloc s
      = Except.error "client certificate authentication with encrypted private keys is not supported"
    ∧ ∀ s2, configure_ssl_verification ssl_verify (some cert) (some key) (some pw)
        ca_file tls_insecure_env ca_file_exists netloc s ≠ Except.ok s2 := by
  have htr : envTruthy (some pw) = true := envTruthy_some_of_ne pw hpw
  constructor
  · simp only [configure_ssl_verification, htr, if_true]
  · intro s2 hcontra
    simp only [configure_ssl_verification, htr, if_true] at hcontra
    cases hcontra

/-- Witness for `configure_ssl_verification_spec` at concrete paths. -/
theorem configure_ssl_verification_spec_witness :
    configure_ssl_verification true (some "cert.pem") (some "key.pem") (some "secret")
        none false false "jira.local"
        { cert := none, mounts := [], verify := VerifySetting.flag true }
      = Except.error "client certificate authentication with encrypted private keys is not supported" :=
  (configure_ssl_verification_spec "cert.pem" "key.pem" "secret" (by decide)
    true none false false "jira.local"
    { cert := none, mounts := [], verify := VerifySetting.flag true }).1

/-! ### C8 — `CommentsMixin._markdown_to_jira` (comments.py, lines 227–249)

The preprocessor's `markdown_to_jira` collaborator is passed in as a
function that either returns converted text or raises. -/

/-- Model of `_markdown_to_jira`: empty input gives `""`; otherwise call the
preprocessor and, if it raises any exception, log and return the original
text unchanged. -/
def markdown_to_jira (convert : String → Except String String)
    (markdown_text : String) : String :=
  if markdown_text.isEmpty then ""
  else
    match convert markdown_text with
    | Except.ok converted => converted
    | Except.error _ => markdown_text

/-- The body `add_comment`/`edit_comment` hand to the Jira API: the
Markdown comment converted via `_markdown_to_jira`. -/
def comment_body_sent (convert : String → Except String String)
    (comment : String) : String :=
  markdown_to_jira convert comment

/-- Claim C8: for every non-empty Markdown input, if the conversion
collaborator raises, `_markdown_to_jira` returns the original input
unchanged instead of propagating, and `add_comment`/`edit_comment` thus
send the original text. -/
theorem markdown_to_jira_fallback (convert : String → Except String String)
    (text : String) (hne : text ≠ "") (e : String)
    (hfail : convert text = Except.error e) :
    markdown_to_jira convert text = text
    ∧ comment_body_sent convert text = text := by
  have hempty : text.isEmpty = false := isEmpty_false_of_ne text hne
  constructor
  · simp only [markdown_to_jira, hempty, Bool.false_eq_true, if_false, hfail]
  · simp only [comment_body_sent, markdown_to_jira, hempty, Bool.false_eq_true,
      if_false, hfail]

/-- Witness for `markdown_to_jira_fallback`: a raising converter leaves
`**bold**` untouched. -/
theorem markdown_to_jira_fallback_witness :
    markdown_to_jira (fun _ => Except.error "boom") "**bold**" = "**bold**" :=
  (markdown_to_jira_fallback (fun _ => Except.error "boom") "**bold**"
    (by decide) "boom" rfl).1
